import Mathlib

/-!
Shallow embedding of the core query logic of the company MCP server
(`src/index.js` and its near-identical variants).

The core consists of:
* `applyFilters`  — the predicate evaluator (src/index.js lines 479–503);
* `fillMissingFields` — the missing-value normalizer (lines 505–514);
* the search pipeline of `POST /tools/call` with tool `search`
  (lines 301–336): filter, normalize, optional sort, slice;
* the lookup-by-name of `get_company` / `GET /get-company`
  (lines 347–366 and 421–438).

Records are loaded by `csv-parser`, which yields objects whose values are
strings; the normalizer additionally guards against `null` and `undefined`
values, so record values are modelled as a JS value type `JVal` with those
three forms.  Filter-condition objects arrive from JSON and may be missing
any of `field`, `op`, `value`; the documented schema ("use string format
for all values") types `value` as a string, so a present condition value is
modelled as a string and a missing one as JS `undefined` (`Option.none`).
-/

/-- A JavaScript value as stored in a loaded record: a string (the form
`csv-parser` produces), `null`, or `undefined`. -/
inductive JVal where
  | str (s : String)
  | jnull
  | undef
deriving DecidableEq, Repr

/-- A record: one CSV row, an object from field name to value.  JS object
keys are unique and ordered; modelled as an association list. -/
abbrev Rec : Type := List (String × JVal)

/-- `row[k]` / `k in row`: first binding of key `k`, `none` when absent. -/
def getField (row : Rec) (k : String) : Option JVal :=
  match row with
  | [] => none
  | (k1, v) :: rest => if k1 = k then some v else getField rest k

/-- A filter condition `{field, op, value}` as received from JSON; each
component may be absent (JS `undefined`). -/
structure FilterCond where
  field : Option String
  op : Option String
  value : Option String
deriving DecidableEq, Repr

/-- JS property-key coercion: `undefined in row` tests the key
`"undefined"` (`ToPropertyKey(undefined) = "undefined"`). -/
def keyOf (f : Option String) : String :=
  match f with
  | some s => s
  | none => "undefined"

/-- JS `String(v)` on a possibly-missing string value:
`String(undefined) = "undefined"`. -/
def jsString (v : Option String) : String :=
  match v with
  | some s => s
  | none => "undefined"

/-- Whitespace removed by JS `String.prototype.trim` and skipped by
`Number()`: WhiteSpace and LineTerminator code points (ASCII forms plus
NBSP; the dataset is ASCII). -/
def isJsWs (c : Char) : Bool :=
  c = ' ' || c = '\t' || c = '\n' || c = '\r' || c = '\x0b' || c = '\x0c' || c = ' '

/-- JS `trim`: drop leading and trailing whitespace. -/
def jsTrim (s : String) : String :=
  String.mk (((s.data.dropWhile isJsWs).reverse.dropWhile isJsWs).reverse)

/-- JS `toLowerCase` (ASCII case mapping; the dataset is ASCII). -/
def jsLower (s : String) : String :=
  String.mk (s.data.map Char.toLower)

def isDigitB (c : Char) : Bool :=
  '0' ≤ c && c ≤ '9'

def digitVal (c : Char) : ℕ := c.toNat - 48

def natOfDigits (l : List Char) : ℕ :=
  l.foldl (fun a c => 10 * a + digitVal c) 0

/-- Sign of a numeric literal: leading `-` or `+`. -/
def splitSign (l : List Char) : Bool × List Char :=
  match l with
  | '-' :: t => (true, t)
  | '+' :: t => (false, t)
  | _ => (false, l)

/-- Decimal exponent suffix after `e`/`E`: signed digit run, which must
consume the rest of the literal. -/
def parseExp (l : List Char) : Option (Bool × ℕ) :=
  match l with
  | [] => some (false, 0)
  | 'e' :: t =>
      let (neg, t1) := splitSign t
      let ds := t1.takeWhile isDigitB
      let r := t1.dropWhile isDigitB
      if ds = [] ∨ r ≠ [] then none else some (neg, natOfDigits ds)
  | 'E' :: t =>
      let (neg, t1) := splitSign t
      let ds := t1.takeWhile isDigitB
      let r := t1.dropWhile isDigitB
      if ds = [] ∨ r ≠ [] then none else some (neg, natOfDigits ds)
  | _ => none

/-- Unsigned decimal mantissa `digits [. digits]` followed by an optional
exponent; at least one digit must be present.  The value is returned as a
numerator over a power-of-ten denominator. -/
def parseDecimal (l : List Char) : Option (ℕ × ℕ) :=
  let intD := l.takeWhile isDigitB
  let r1 := l.dropWhile isDigitB
  let (fracD, r2) :=
    match r1 with
    | '.' :: t => (t.takeWhile isDigitB, t.dropWhile isDigitB)
    | _ => ([], r1)
  if intD = [] ∧ fracD = [] then none
  else
    match parseExp r2 with
    | none => none
    | some (eneg, e) =>
        let num := natOfDigits intD * 10 ^ fracD.length + natOfDigits fracD
        let den := 10 ^ fracD.length
        some (if eneg then (num, den * 10 ^ e) else (num * 10 ^ e, den))

/-- JS `Number()` applied to a string (`ToNumber` on the decimal literal
forms; `none` is `NaN`).  A whitespace-only string converts to `0`; the
non-decimal literal forms (hex/octal/binary, `Infinity`), which the CSV
dataset and the documented string-valued filter schema never produce, do
not arise and convert to `NaN`. -/
def jsToNum (s : String) : Option ℚ :=
  let t := (jsTrim s).data
  if t = [] then some 0
  else
    let (neg, t1) := splitSign t
    match parseDecimal t1 with
    | none => none
    | some (n, d) => some (mkRat (if neg then -(n : ℤ) else (n : ℤ)) d)

/-- JS `Number()` on a record value: `Number(null) = 0`,
`Number(undefined) = NaN`.  `isNaN(v)` is `toNumJ v = none`. -/
def toNumJ (v : JVal) : Option ℚ :=
  match v with
  | .str s => jsToNum s
  | .jnull => some 0
  | .undef => none

/-- JS `Number()` on the condition value (a string or `undefined`). -/
def toNumV (v : Option String) : Option ℚ :=
  match v with
  | some s => jsToNum s
  | none => none

/-- JS loose equality `actual == value` between a record value and a
condition value (string or `undefined`): string–string is strict equality,
`null == undefined` holds, strings never equal `null`/`undefined`. -/
def looseEq (actual : JVal) (v : Option String) : Bool :=
  match actual, v with
  | .str s, some t => s = t
  | .jnull, none => true
  | .undef, none => true
  | _, _ => false

/-- JS truthiness of a record value: `""`, `null`, `undefined` are falsy. -/
def truthy (v : JVal) : Bool :=
  match v with
  | .str s => s ≠ ""
  | .jnull => false
  | .undef => false

/-- Substring test (`String.prototype.includes`). -/
def hasInfix (needle : List Char) : List Char → Bool
  | [] => needle.isEmpty
  | c :: rest => List.isPrefixOf needle (c :: rest) || hasInfix needle rest

/-- One arm of the `switch (f.op)` in `applyFilters`, evaluated when
`f.field` is a key of the record with value `actual`.  Returns `false`
exactly when the switch executes `return false`; an unrecognized or
missing `op` falls through and the condition passes. -/
def opEval (actual : JVal) (f : FilterCond) : Bool :=
  if f.op = some "eq" then
    looseEq actual f.value
  else if f.op = some "contains" then
    truthy actual &&
      (match actual with
       | .str s => hasInfix (jsLower (jsString f.value)).data (jsLower s).data
       | _ => false)
  else if f.op = some "gt" then
    match toNumJ actual, toNumV f.value with
    | none, _ => false
    | some a, some b => decide (b < a)
    | some _, none => true
  else if f.op = some "lt" then
    match toNumJ actual, toNumV f.value with
    | none, _ => false
    | some a, some b => decide (a < b)
    | some _, none => true
  else
    true

/-- One loop iteration of `applyFilters`: `if (!(f.field in row)) continue`
then the switch.  A condition whose field is absent passes vacuously. -/
def condPasses (row : Rec) (f : FilterCond) : Bool :=
  match getField row (keyOf f.field) with
  | none => true
  | some actual => opEval actual f

/-- `applyFilters(row, filters)` (src/index.js lines 479–503): loop over
the conditions, `return false` at the first failing one, `return true`
after the loop — a short-circuiting conjunction. -/
def applyFilters (row : Rec) : List FilterCond → Bool
  | [] => true
  | f :: fs => if condPasses row f then applyFilters row fs else false

/-- The value rewrite inside `fillMissingFields`: `row[key] === "" ||
row[key] === undefined || row[key] === null ? "no_data" : row[key]`. -/
def fillVal (v : JVal) : JVal :=
  if v = .str "" ∨ v = .undef ∨ v = .jnull then .str "no_data" else v

/-- `fillMissingFields(row)` (src/index.js lines 505–514): rebuild the
record over `Object.keys(row)`, replacing empty/undefined/null values by
the sentinel `"no_data"`. -/
def fillMissingFields (row : Rec) : Rec :=
  row.map (fun kv => (kv.1, fillVal kv.2))

/-- Result of `maybeNumber(v)`: `Number.isFinite(Number(v)) ? Number(v) : v`.
On a missing field (`undefined`) or a non-numeric string the original value
comes back; `null` converts to the finite number `0`. -/
inductive MNum where
  | num (q : ℚ)
  | str (s : String)
  | undef
deriving DecidableEq, Repr

/-- `maybeNumber(a[sort.field])` for a possibly-absent record value. -/
def mnOf (v : Option JVal) : MNum :=
  match v with
  | none => .undef
  | some .undef => .undef
  | some .jnull => .num 0
  | some (.str s) =>
      match jsToNum s with
      | some q => .num q
      | none => .str s

/-- Code-unit lexicographic order of JS `<` on two strings. -/
def strLtB : List Char → List Char → Bool
  | [], [] => false
  | [], _ :: _ => true
  | _ :: _, [] => false
  | a :: as, b :: bs => a < b || (a = b && strLtB as bs)

/-- JS `<` on `maybeNumber` results: string–string compares code units,
any other mix converts both sides with `ToNumber` and is `false` whenever
a side is `NaN` (`undefined`, or a string that failed to parse). -/
def jsLtB : MNum → MNum → Bool
  | .num a, .num b => decide (a < b)
  | .str a, .str b => strLtB a.data b.data
  | .num a, .str b =>
      match jsToNum b with
      | some q => decide (a < q)
      | none => false
  | .str a, .num b =>
      match jsToNum a with
      | some q => decide (q < b)
      | none => false
  | .undef, _ => false
  | _, .undef => false

/-- Sort spec `{field, dir}` from the request; either part may be absent. -/
structure SortSpec where
  field : Option String
  dir : Option String
deriving DecidableEq, Repr

/-- The comparator passed to `matched.sort` (src/index.js lines 312–318):
`-1`/`1` by `A < B` and `A > B` on `maybeNumber` of the sort field,
inverted when `dir === "desc"`. -/
def sortCmp (fld : String) (dir : Option String) (a b : Rec) : ℤ :=
  let A := mnOf (getField a fld)
  let B := mnOf (getField b fld)
  if jsLtB A B then (if dir = some "desc" then 1 else -1)
  else if jsLtB B A then (if dir = some "desc" then -1 else 1)
  else 0

/-- `if (sort && sort.field) matched.sort(...)`: sorts only when a sort
spec with a truthy `field` is given.  ECMAScript guarantees a stable sort
consistent with the comparator (and leaves the order implementation-defined
when the comparator is inconsistent, as it can be on mixed types);
modelled as a stable merge sort by `comparator ≤ 0`. -/
def sortStep (l : List Rec) (sort : Option SortSpec) : List Rec :=
  match sort with
  | none => l
  | some sp =>
      match sp.field with
      | none => l
      | some fld => if fld = "" then l else l.mergeSort (fun a b => sortCmp fld sp.dir a b ≤ 0)

/-- Index clamping of `Array.prototype.slice`: a negative index counts
from the end, then both are clamped to `[0, len]`. -/
def sliceIdx (len : ℕ) (i : ℤ) : ℕ :=
  if i < 0 then (max ((len : ℤ) + i) 0).toNat else min i.toNat len

/-- `l.slice(start, stop)`. -/
def jsSlice {α : Type} (l : List α) (start stop : ℤ) : List α :=
  (l.take (sliceIdx l.length stop)).drop (sliceIdx l.length start)

/-- The page returned by the search tool: `{total, showing, results}`. -/
structure SearchResult where
  total : ℕ
  showing : ℕ
  results : List Rec
deriving DecidableEq

/-- The `search` tool of `POST /tools/call` (src/index.js lines 301–336):
filter the store by `applyFilters` on the raw rows, map the survivors
through `fillMissingFields`, optionally sort, slice
`[offset, offset + limit)`, and report `total` as the full filtered count
and `showing` as the slice length. -/
def searchTool (store : List Rec) (filters : List FilterCond)
    (limit offset : ℤ) (sort : Option SortSpec) : SearchResult :=
  let matched := store.filter (fun row => applyFilters row filters)
  let filled := matched.map fillMissingFields
  let sorted := sortStep filled sort
  let page := jsSlice sorted offset (offset + limit)
  { total := sorted.length, showing := page.length, results := page }

/-- `(c.company_name || "")`: the designated name field, with falsy values
(absent, `undefined`, `null`, `""`) replaced by `""`. -/
def nameOf (c : Rec) : String :=
  match getField c "company_name" with
  | some (.str s) => s
  | _ => ""

/-- `s.toLowerCase().trim()` — the normal form both sides of the
`get_company` comparison are put into. -/
def normName (s : String) : String :=
  jsTrim (jsLower s)

/-- The name branch of `get_company` (src/index.js lines 347–353 and
428–434): `companies.find(c => (c.company_name || "").toLowerCase().trim()
=== name.toLowerCase().trim())`; `none` is the not-found signal the
adapters render as an error block / 404, never as a thrown exception. -/
def findByName (store : List Rec) (n : String) : Option Rec :=
  store.find? (fun c => normName (nameOf c) = normName n)

/-! ### Helper lemmas -/

/-- The early-return loop of `applyFilters` computes the conjunction of
`condPasses` over all conditions. -/
theorem applyFilters_eq_all (row : Rec) (F : List FilterCond) :
    applyFilters row F = F.all (condPasses row) := by
  induction F with
  | nil => rfl
  | cons f fs ih =>
      cases h : condPasses row f <;> simp [applyFilters, h, ih]

theorem applyFilters_append (row : Rec) (F1 F2 : List FilterCond) :
    applyFilters row (F1 ++ F2) = (applyFilters row F1 && applyFilters row F2) := by
  simp [applyFilters_eq_all, List.all_append]

theorem length_sortStep (l : List Rec) (s : Option SortSpec) :
    (sortStep l s).length = l.length := by
  rcases s with _ | ⟨fldo, diro⟩
  · rfl
  · rcases fldo with _ | fld
    · rfl
    · by_cases h : fld = "" <;> simp [sortStep, h]

theorem mem_sortStep {r : Rec} {l : List Rec} {s : Option SortSpec} :
    r ∈ sortStep l s ↔ r ∈ l := by
  rcases s with _ | ⟨fldo, diro⟩
  · exact Iff.rfl
  · rcases fldo with _ | fld
    · exact Iff.rfl
    · by_cases h : fld = "" <;> simp [sortStep, h]

theorem sliceIdx_le (len : ℕ) (i : ℤ) : sliceIdx len i ≤ len := by
  unfold sliceIdx
  split <;> omega

theorem length_jsSlice {α : Type} (l : List α) (a b : ℤ) :
    (jsSlice l a b).length = sliceIdx l.length b - sliceIdx l.length a := by
  unfold jsSlice
  rw [List.length_drop, List.length_take]
  have h := sliceIdx_le l.length b
  omega

theorem getField_fill (row : Rec) (k : String) :
    getField (fillMissingFields row) k = (getField row k).map fillVal := by
  induction row with
  | nil => rfl
  | cons kv rest ih =>
      obtain ⟨k1, v⟩ := kv
      by_cases h : k1 = k
      · simp [fillMissingFields, getField, h]
      · simpa [fillMissingFields, getField, h] using ih

theorem fillVal_fillVal (v : JVal) : fillVal (fillVal v) = fillVal v := by
  by_cases h : v = .str "" ∨ v = .undef ∨ v = .jnull
  · have hv : fillVal v = .str "no_data" := by rw [fillVal, if_pos h]
    rw [hv]
    rfl
  · have hv : fillVal v = v := by rw [fillVal, if_neg h]
    rw [hv, hv]

/-- The four operator names the `switch` in `applyFilters` recognizes. -/
def recognizedOps : List (Option String) :=
  [some "eq", some "contains", some "gt", some "lt"]

/-- A condition whose `op` is not one of the four recognized operator
strings falls through the `switch` and never fails. -/
theorem opEval_unrecognized (actual : JVal) (f : FilterCond)
    (h : f.op ∉ recognizedOps) : opEval actual f = true := by
  simp only [recognizedOps, List.mem_cons, List.not_mem_nil, or_false, not_or] at h
  obtain ⟨h1, h2, h3, h4⟩ := h
  simp [opEval, h1, h2, h3, h4]

theorem condPasses_unrecognized (row : Rec) (f : FilterCond)
    (h : f.op ∉ recognizedOps) : condPasses row f = true := by
  cases hg : getField row (keyOf f.field) with
  | none => simp [condPasses, hg]
  | some a => simp [condPasses, hg, opEval_unrecognized a f h]

theorem applyFilters_drop_mid (row : Rec) (F1 F2 : List FilterCond)
    (f : FilterCond) (h : condPasses row f = true) :
    applyFilters row (F1 ++ f :: F2) = applyFilters row (F1 ++ F2) := by
  simp [applyFilters_eq_all, List.all_append, List.all_cons, h]

/-! ### Claim theorems -/

/-- Claim C1: `applyFilters(record, filters)` is true iff every condition
passes — where a condition whose field is absent from the record passes
vacuously and a present one is judged by its operator — and the
early-return loop computes exactly this conjunction. -/
theorem applyFilters_conj_vacuous (row : Rec) (F : List FilterCond) :
    (applyFilters row F = true ↔ ∀ f ∈ F, condPasses row f = true) ∧
    ∀ f : FilterCond, getField row (keyOf f.field) = none → condPasses row f = true := by
  constructor
  · rw [applyFilters_eq_all]
    exact List.all_eq_true
  · intro f h
    simp [condPasses, h]

/-- Witness for C1 at a concrete record and filter set. -/
theorem applyFilters_conj_vacuous_spot :
    applyFilters [("country", JVal.str "US")]
      [⟨some "country", some "eq", some "US"⟩] = true :=
  (applyFilters_conj_vacuous [("country", JVal.str "US")]
    [⟨some "country", some "eq", some "US"⟩]).1.mpr (by decide)

/-- Counterexample to C2 as stated: in a `gt` condition whose value fails
to parse as a number (`Number("abc")` is `NaN`) while the record value
parses, the comparison `Number(actual) <= Number(value)` is false, so the
condition does NOT fail and the record is included, not excluded. -/
theorem gt_nonNumeric_value_matches :
    jsToNum "abc" = none ∧
    applyFilters [("x", JVal.str "5")] [⟨some "x", some "gt", some "abc"⟩] = true := by
  decide

/-- Claim C2 (amended): for a `gt`/`lt` condition, if the record's field
value fails to parse as a number the condition is non-matching; if the
record value parses but the condition's value does not, the condition is
treated as matching (silently skipped); the evaluation always resolves to
a boolean. -/
theorem gtLt_nonNumeric_policy (actual : JVal) (f : FilterCond)
    (h : f.op = some "gt" ∨ f.op = some "lt") :
    (toNumJ actual = none → opEval actual f = false) ∧
    (∀ a : ℚ, toNumJ actual = some a → toNumV f.value = none → opEval actual f = true) ∧
    (opEval actual f = true ∨ opEval actual f = false) := by
  refine ⟨?_, ?_, ?_⟩
  · intro hn
    rcases h with h | h <;>
      simp [opEval, h, hn]
  · intro a ha hv
    rcases h with h | h <;>
      simp [opEval, h, ha, hv]
  · exact Bool.eq_false_or_eq_true _

/-- Witness for the amended C2: `"abc"` as record value fails the parse
and a `gt` condition on it is non-matching. -/
theorem gtLt_nonNumeric_policy_spot :
    opEval (JVal.str "abc") ⟨some "x", some "gt", some "5"⟩ = false :=
  (gtLt_nonNumeric_policy (JVal.str "abc") ⟨some "x", some "gt", some "5"⟩
    (Or.inl rfl)).1 (by decide)

/-- Counterexample to C3 as stated: a condition missing only its `value`
is not dropped — `eq` compares the field against `undefined` and excludes
every record that has the field, so the result differs from the filter set
without the condition. -/
theorem missing_value_not_dropped :
    (searchTool [[("country", JVal.str "US")]]
        [⟨some "country", some "eq", none⟩] 50 0 none).total = 0 ∧
    (searchTool [[("country", JVal.str "US")]] [] 50 0 none).total = 1 := by
  decide

/-- Claim C3 (amended): a condition with an unrecognized or missing `op`
is dropped; a condition missing its `field` is dropped provided no record
of the store has a field literally named `"undefined"` (the JS key the
lookup falls back to); the search returns the same result page as without
the condition.  (A condition missing only its `value` is still evaluated,
with `undefined` as the value.) -/
theorem search_drops_malformed (store : List Rec) (F1 F2 : List FilterCond)
    (f : FilterCond) (limit offset : ℤ) (sort : Option SortSpec)
    (h : f.op ∉ recognizedOps ∨
      (f.field = none ∧ ∀ r ∈ store, getField r "undefined" = none)) :
    searchTool store (F1 ++ f :: F2) limit offset sort
      = searchTool store (F1 ++ F2) limit offset sort := by
  have hfilter : store.filter (fun r => applyFilters r (F1 ++ f :: F2))
      = store.filter (fun r => applyFilters r (F1 ++ F2)) := by
    apply List.filter_congr
    intro r hr
    apply applyFilters_drop_mid
    rcases h with h | ⟨hf, hu⟩
    · exact condPasses_unrecognized r f h
    · simp [condPasses, keyOf, hf, hu r hr]
  simp only [searchTool, hfilter]

/-- Witness for the amended C3 at a concrete store and an unrecognized
operator. -/
theorem search_drops_malformed_spot :
    searchTool [[("country", JVal.str "US")]]
        [⟨some "country", some "regex", some "US"⟩] 50 0 none
      = searchTool [[("country", JVal.str "US")]] [] 50 0 none :=
  search_drops_malformed [[("country", JVal.str "US")]] [] []
    ⟨some "country", some "regex", some "US"⟩ 50 0 none (Or.inl (by decide))

/-- Claim C4: for every store, filter set, limit, offset and sort, `total`
equals the number of records kept by the filter step over the whole store
(independent of `limit`/`offset`, which do not occur on the right-hand
side) and `showing` equals the length of the returned slice. -/
theorem search_total_is_filtered_count (store : List Rec) (F : List FilterCond)
    (limit offset : ℤ) (sort : Option SortSpec) :
    (searchTool store F limit offset sort).total
      = (store.filter (fun r => applyFilters r F)).length ∧
    (searchTool store F limit offset sort).showing
      = (searchTool store F limit offset sort).results.length := by
  refine ⟨?_, rfl⟩
  simp [searchTool, length_sortStep]

/-- Claim C5: with `limit ≥ 0` and `offset ≥ 0`, the returned page
satisfies `showing ≤ min(limit, total - offset)` (subtraction truncated at
zero) and `showing ≥ 0`. -/
theorem search_showing_bounds (store : List Rec) (F : List FilterCond)
    (limit offset : ℤ) (sort : Option SortSpec)
    (hl : 0 ≤ limit) (ho : 0 ≤ offset) :
    (searchTool store F limit offset sort).showing
      ≤ min limit.toNat ((searchTool store F limit offset sort).total - offset.toNat) ∧
    0 ≤ (searchTool store F limit offset sort).showing := by
  refine ⟨?_, Nat.zero_le _⟩
  have key : ∀ l : List Rec,
      (jsSlice l offset (offset + limit)).length ≤ min limit.toNat (l.length - offset.toNat) := by
    intro l
    rw [length_jsSlice]
    unfold sliceIdx
    rw [if_neg (by omega), if_neg (by omega), Int.toNat_add ho hl]
    omega
  exact key _

/-- Witness for C5 at a concrete two-record store with `limit = 1`,
`offset = 1`. -/
theorem search_showing_bounds_spot :
    (searchTool [[("a", JVal.str "1")], [("a", JVal.str "2")]] [] 1 1 none).showing
      ≤ min (1 : ℤ).toNat
          ((searchTool [[("a", JVal.str "1")], [("a", JVal.str "2")]] [] 1 1 none).total
            - (1 : ℤ).toNat) :=
  (search_showing_bounds [[("a", JVal.str "1")], [("a", JVal.str "2")]] [] 1 1 none
    (by decide) (by decide)).1

/-- Claim C6: the filter step sees only the raw records — `total` is the
count of raw records passing `applyFilters` — and every returned record is
`fillMissingFields` of a raw store record that passed the raw filter, so
normalization changes neither the matched set nor `total`. -/
theorem search_raw_filter_then_normalize (store : List Rec) (F : List FilterCond)
    (limit offset : ℤ) (sort : Option SortSpec) :
    (searchTool store F limit offset sort).total
      = (store.filter (fun r => applyFilters r F)).length ∧
    ∀ r ∈ (searchTool store F limit offset sort).results,
      ∃ r0, r0 ∈ store ∧ applyFilters r0 F = true ∧ r = fillMissingFields r0 := by
  constructor
  · simp [searchTool, length_sortStep]
  · intro r hr
    simp only [searchTool] at hr
    unfold jsSlice at hr
    have h1 : r ∈ sortStep
        ((store.filter (fun row => applyFilters row F)).map fillMissingFields) sort :=
      List.take_subset _ _ (List.drop_subset _ _ hr)
    have h2 := mem_sortStep.mp h1
    rcases List.mem_map.mp h2 with ⟨r0, hr0, hfill⟩
    rcases List.mem_filter.mp hr0 with ⟨hs, hp⟩
    exact ⟨r0, hs, hp, hfill.symm⟩

/-- Witness for C6: a concrete returned record decomposes as the
normalization of a raw survivor. -/
theorem search_raw_filter_then_normalize_spot :
    ∃ r0, r0 ∈ ([[("country", JVal.str "US"), ("rev", JVal.str "")]] : List Rec)
      ∧ applyFilters r0 [] = true
      ∧ fillMissingFields [("country", JVal.str "US"), ("rev", JVal.str "")]
          = fillMissingFields r0 :=
  (search_raw_filter_then_normalize
    [[("country", JVal.str "US"), ("rev", JVal.str "")]] [] 50 0 none).2
    (fillMissingFields [("country", JVal.str "US"), ("rev", JVal.str "")]) (by decide)

/-- Claim C7: lookup-by-name compares both sides after
`toLowerCase().trim()`, so any two query strings with the same normal form
give the same result (in particular `" Acme "` and `"acme"`), and when no
record's name field matches, the total function returns the not-found
signal `none` rather than throwing. -/
theorem findByName_insensitive (store : List Rec) (s t n : String) :
    (normName s = normName t → findByName store s = findByName store t) ∧
    ((∀ c ∈ store, normName (nameOf c) ≠ normName n) → findByName store n = none) := by
  constructor
  · intro h
    unfold findByName
    rw [h]
  · intro h
    unfold findByName
    rw [List.find?_eq_none]
    intro c hc
    simpa using h c hc

/-- Witness for C7: `" Acme "` and `"acme"` give the same lookup result,
and an unknown name returns `none`. -/
theorem findByName_insensitive_spot :
    findByName [[("company_name", JVal.str "Acme")]] " Acme "
      = findByName [[("company_name", JVal.str "Acme")]] "acme" :=
  (findByName_insensitive [[("company_name", JVal.str "Acme")]] " Acme " "acme" "x").1
    (by decide)

/-- Claim C8: `fillMissingFields` is idempotent, and pointwise it replaces
exactly the values equal to the empty string, `undefined` (absent value)
or `null` by the sentinel `"no_data"` and passes every other value through
unchanged. -/
theorem fillMissingFields_idem_sentinel (row : Rec) :
    fillMissingFields (fillMissingFields row) = fillMissingFields row ∧
    ∀ k v, getField row k = some v →
      getField (fillMissingFields row) k
        = some (if v = .str "" ∨ v = .undef ∨ v = .jnull then .str "no_data" else v) := by
  constructor
  · have hcomp : ((fun kv : String × JVal => (kv.1, fillVal kv.2)) ∘
        fun kv : String × JVal => (kv.1, fillVal kv.2))
        = fun kv : String × JVal => (kv.1, fillVal kv.2) := by
      funext kv
      simp [fillVal_fillVal]
    unfold fillMissingFields
    rw [List.map_map, hcomp]
  · intro k v h
    rw [getField_fill, h]
    rfl

/-- Witness for C8: an empty-string value is rewritten to the sentinel. -/
theorem fillMissingFields_idem_sentinel_spot :
    getField (fillMissingFields [("rev", JVal.str "")]) "rev"
      = some (JVal.str "no_data") :=
  ((fillMissingFields_idem_sentinel [("rev", JVal.str "")]).2 "rev" (JVal.str "")
    (by decide)).trans (by decide)

/-- Claim C9: an empty-string field value under `gt`/`lt` coerces to the
number `0` (it is not a failed parse): an `lt` condition with a positive
numeric value matches the record, a `gt` condition with a non-negative
numeric value does not. -/
theorem gtLt_emptyString_zero (row : Rec) (f : FilterCond) (q : ℚ)
    (hfield : getField row (keyOf f.field) = some (JVal.str ""))
    (hval : toNumV f.value = some q) :
    jsToNum "" = some 0 ∧
    (f.op = some "lt" → 0 < q → condPasses row f = true) ∧
    (f.op = some "gt" → 0 ≤ q → condPasses row f = false) := by
  have h0 : toNumJ (JVal.str "") = some 0 := by decide
  refine ⟨by decide, ?_, ?_⟩
  · intro hop hq
    simp only [condPasses, hfield]
    unfold opEval
    rw [hop, if_neg (by decide), if_neg (by decide), if_neg (by decide), if_pos rfl,
      h0, hval]
    exact decide_eq_true hq
  · intro hop hq
    simp only [condPasses, hfield]
    unfold opEval
    rw [hop, if_neg (by decide), if_neg (by decide), if_pos rfl, h0, hval]
    exact decide_eq_false (by exact not_lt.mpr hq)

/-- Witness for C9: record value `""` matches `lt 100000` and fails
`gt 0`. -/
theorem gtLt_emptyString_zero_spot :
    condPasses [("rev", JVal.str "")] ⟨some "rev", some "lt", some "100000"⟩ = true :=
  ((gtLt_emptyString_zero [("rev", JVal.str "")]
      ⟨some "rev", some "lt", some "100000"⟩ 100000 (by decide) (by decide)).2.1)
    rfl (by decide)

/-- Claim C10: `fillMissingFields` preserves the record's field list —
same keys in the same order, none added or removed — and leaves every
value other than empty-string/`undefined`/`null` unchanged. -/
theorem fillMissingFields_keys_frame (row : Rec) :
    (fillMissingFields row).map Prod.fst = row.map Prod.fst ∧
    ∀ k v, getField row k = some v → ¬(v = .str "" ∨ v = .undef ∨ v = .jnull) →
      getField (fillMissingFields row) k = some v := by
  constructor
  · unfold fillMissingFields
    rw [List.map_map]
    rfl
  · intro k v h hv
    rw [getField_fill, h]
    show some (fillVal v) = some v
    rw [fillVal, if_neg hv]

/-- Witness for C10: a non-empty value passes through unchanged. -/
theorem fillMissingFields_keys_frame_spot :
    getField (fillMissingFields [("country", JVal.str "US")]) "country"
      = some (JVal.str "US") :=
  (fillMissingFields_keys_frame [("country", JVal.str "US")]).2 "country"
    (JVal.str "US") (by decide) (by decide)
